import Mathlib

deriving instance DecidableEq for Except

/-!
A shallow embedding of the links_crud bookmark organizer (`src/main.py`):
sections and links stored in a relational store, with CRUD endpoints and
bulk reorder endpoints that assign `sort_order` positions.

The store is modelled as lists of rows kept in insertion (rowid) order;
`ORDER BY` is modelled as a stable sort on the requested key.  Machine
timestamps are modelled as a logical clock (`Nat`), ids as `Int` (the
payload sanitizer works over signed integers).
-/

namespace LinksCrud

/-- An HTTP error response, as raised by `HTTPException(status, detail)`
or produced by request-validation failure (status 422). -/
structure HTTPError where
  status : Nat
  detail : String
deriving DecidableEq

/-- Row of the `sections` table (`class Section` in `src/main.py`). -/
structure Section where
  id : Int
  name : String
  color : String
  sort_order : Int
  created_at : Nat
deriving DecidableEq

/-- Row of the `links` table (`class Link` in `src/main.py`). -/
structure Link where
  id : Int
  section_id : Int
  title : String
  url : String
  sort_order : Int
  created_at : Nat
deriving DecidableEq

/-- The whole persistent state: both tables in insertion (rowid) order,
the next autoincrement ids, and a logical clock used for `created_at`. -/
structure DB where
  sections : List Section
  links : List Link
  nextSectionId : Int
  nextLinkId : Int
  now : Nat
deriving DecidableEq

/-- A raw JSON entry of the `ordered_ids` payload before sanitization:
an integer, a string, or `null`. -/
inductive RawEntry where
  | intE (i : Int)
  | strE (s : String)
  | noneE
deriving DecidableEq

/-- Accumulate decimal digits left to right; `none` on any non-digit. -/
def parseDigitsAux (acc : Nat) : List Char → Option Nat
  | [] => some acc
  | c :: cs => if c.isDigit then parseDigitsAux (acc * 10 + (c.toNat - 48)) cs else none

/-- Parse a nonempty run of decimal digits. -/
def parseDigits (cs : List Char) : Option Nat :=
  match cs with
  | [] => none
  | _ => parseDigitsAux 0 cs

/-- Python's `str.strip()`: drop leading and trailing whitespace. -/
def pyStrip (s : String) : String :=
  ⟨((s.data.dropWhile Char.isWhitespace).reverse.dropWhile Char.isWhitespace).reverse⟩

/-- Python's `str.lower()` (ASCII case folding suffices here). -/
def pyLower (s : String) : String :=
  ⟨s.data.map Char.toLower⟩

/-- Python's `int(...)` applied to an already-stripped string: an optional
sign followed by digits.  (Grouping underscores and non-ASCII digits,
which CPython also accepts, are not modelled; no claim depends on them.) -/
def pyInt (s : String) : Option Int :=
  match s.data with
  | '-' :: rest => (parseDigits rest).map (fun n => -(n : Int))
  | '+' :: rest => (parseDigits rest).map (fun n => (n : Int))
  | cs => (parseDigits cs).map (fun n => (n : Int))

/-- Model of `int(str(x).strip())` from `ReorderPayload.normalize_ids`, returning
`none` where Python raises.  `str` of an int is its decimal form, so an
integer entry parses to itself; `str(None)` is `"None"`, which fails. -/
def entryToInt : RawEntry → Option Int
  | .intE i => some i
  | .strE s => pyInt (pyStrip s)
  | .noneE => none

/-- The cleaning loop of `ReorderPayload.normalize_ids`: keep each entry
that parses as an integer and is strictly positive, in order. -/
def sanitize (v : List RawEntry) : List Int :=
  v.filterMap (fun x =>
    match entryToInt x with
    | some i => if 0 < i then some i else none
    | none => none)

/-- Model of `ReorderPayload.normalize_ids`: sanitize, and reject when nothing
survives (`ValueError`, surfaced by FastAPI as a 422 response). -/
def normalize_ids (v : List RawEntry) : Except String (List Int) :=
  let cleaned := sanitize v
  if cleaned = [] then
    .error "ordered_ids must contain at least one valid integer id"
  else
    .ok cleaned

/-! ## Store primitives -/

/-- Model of `UPDATE ... WHERE p`: apply `f` to every row satisfying `p`. -/
def updateWhere (p : α → Bool) (f : α → α) (xs : List α) : List α :=
  xs.map (fun x => if p x then f x else x)

/-- The reorder loop `for idx, sid in enumerate(ordered): UPDATE ... WHERE sel sid
SET position idx`, parametrised by the row-selection predicate and the
position setter.  `idx` is the running enumeration index. -/
def orderLoop (sel : Int → α → Bool) (setPos : Nat → α → α) :
    List Int → Nat → List α → List α
  | [], _, xs => xs
  | sid :: rest, idx, xs =>
    orderLoop sel setPos rest (idx + 1) (updateWhere (sel sid) (setPos idx) xs)

/-- Index of the last entry of `ids` satisfying `p`, if any. -/
def lastHitIdx (p : Int → Bool) : List Int → Option Nat
  | [] => none
  | x :: xs =>
    match lastHitIdx p xs with
    | some i => some (i + 1)
    | none => if p x then some 0 else none

/-- Stable insertion of `x` into `l`, placing `x` before the first element
whose key is not smaller: the model of one step of a stable sort. -/
def insertSorted (key : α → Int) (x : α) : List α → List α
  | [] => [x]
  | y :: ys => if key x ≤ key y then x :: y :: ys else y :: insertSorted key x ys

/-- Model of `ORDER BY key`: a stable sort of the rows by `key`; rows with equal
keys keep their stored (insertion) order. -/
def orderBy (key : α → Int) : List α → List α
  | [] => []
  | x :: xs => insertSorted key x (orderBy key xs)

/-- Model of `SELECT ... ORDER BY sort_order DESC LIMIT 1`, projected to the
`sort_order` column: the maximum value, or `none` on an empty set. -/
def maxSortOf : List Int → Option Int
  | [] => none
  | v :: vs =>
    match maxSortOf vs with
    | none => some v
    | some m => some (max v m)

/-- Model of `next_sort = (max_sort.sort_order + 1) if max_sort else 0`, over the
projected `sort_order` column. -/
def nextSort (vals : List Int) : Int :=
  match maxSortOf vals with
  | none => 0
  | some m => m + 1

/-! ## Endpoints

Each endpoint returns the response (`Except HTTPError β`) together with
the post-state of the store; on every error path the state is the input
state, which models the handler raising before commit. -/

/-- The set `ALLOWED_COLORS` from `src/main.py`. -/
def ALLOWED_COLORS : List String :=
  ["slate", "blue", "green", "amber", "red", "purple", "pink", "teal"]

/-- View row returned for a link by `GET /sections`. -/
structure LinkOut where
  id : Int
  title : String
  url : String
deriving DecidableEq

/-- View row returned for a section by `GET /sections`. -/
structure SectionOut where
  id : Int
  name : String
  color : String
  links : List LinkOut
deriving DecidableEq

/-- The ordered link views nested under one section by `list_sections`:
the section's links ordered by `sort_order` alone. -/
def linkOutsFor (db : DB) (sid : Int) : List LinkOut :=
  (orderBy Link.sort_order (db.links.filter (fun l => l.section_id == sid))).map
    (fun l => { id := l.id, title := l.title, url := l.url })

/-- The view row `list_sections` builds for one section. -/
def sectionOut (db : DB) (s : Section) : SectionOut :=
  { id := s.id, name := s.name, color := s.color, links := linkOutsFor db s.id }

/-- Endpoint `GET /sections` (`list_sections`): sections ordered by `sort_order`,
each carrying its links ordered by `sort_order`. -/
def list_sections (db : DB) : List SectionOut :=
  (orderBy Section.sort_order db.sections).map (sectionOut db)

/-- Endpoint `POST /sections` (`create_section`). -/
def create_section (db : DB) (nameArg : String) : Except HTTPError Section × DB :=
  let nm := pyStrip nameArg
  if nm = "" then
    (.error ⟨400, "Section name cannot be empty"⟩, db)
  else if db.sections.any (fun s => s.name == nm) then
    (.error ⟨409, "Section name already exists"⟩, db)
  else
    let next_sort : Int := nextSort (db.sections.map Section.sort_order)
    let s : Section :=
      { id := db.nextSectionId, name := nm, color := "slate",
        sort_order := next_sort, created_at := db.now }
    (.ok s,
      { db with sections := db.sections ++ [s],
                nextSectionId := db.nextSectionId + 1, now := db.now + 1 })

/-- Endpoint `PUT /sections/id` (`update_section`).  The handler mutates the ORM
object and commits only after both validations pass; a failure before
commit leaves the store untouched, which the staged `nameRes`/`colorRes`
computation models. -/
def update_section (db : DB) (section_id : Int)
    (nameArg colorArg : Option String) : Except HTTPError Unit × DB :=
  match db.sections.find? (fun s => s.id == section_id) with
  | none => (.error ⟨404, "Section not found"⟩, db)
  | some s =>
    let nameRes : Except HTTPError String :=
      match nameArg with
      | none => .ok s.name
      | some n =>
        let nn := pyStrip n
        if nn = "" then .error ⟨400, "Section name cannot be empty"⟩
        else if db.sections.any (fun t => t.name == nn && !(t.id == section_id)) then
          .error ⟨409, "Section name already exists"⟩
        else .ok nn
    match nameRes with
    | .error e => (.error e, db)
    | .ok nn =>
      let colorRes : Except HTTPError String :=
        match colorArg with
        | none => .ok s.color
        | some c =>
          let cl := pyLower (pyStrip c)
          if ALLOWED_COLORS.contains cl then .ok cl
          else .error ⟨400, "Invalid color. Allowed: ['amber', 'blue', 'green', 'pink', 'purple', 'red', 'slate', 'teal']"⟩
      match colorRes with
      | .error e => (.error e, db)
      | .ok cc =>
        (.ok (),
          { db with sections := db.sections.map (fun t =>
              if t.id == section_id then { t with name := nn, color := cc } else t) })

/-- Endpoint `DELETE /sections/id` (`delete_section`): removes the section; the
schema's `ON DELETE CASCADE` referential action (declared on
`Link.section_id`, with `cascade="all, delete"` on `Section.links`)
removes the section's links with it. -/
def delete_section (db : DB) (section_id : Int) : Except HTTPError Unit × DB :=
  match db.sections.find? (fun s => s.id == section_id) with
  | none => (.error ⟨404, "Section not found"⟩, db)
  | some _ =>
    (.ok (),
      { db with sections := db.sections.filter (fun s => !(s.id == section_id)),
                links := db.links.filter (fun l => !(l.section_id == section_id)) })

/-- Endpoint `POST /sections/id/links` (`add_link`). -/
def add_link (db : DB) (section_id : Int) (titleArg urlArg : String) :
    Except HTTPError Link × DB :=
  let title := pyStrip titleArg
  let url := pyStrip urlArg
  if title = "" then
    (.error ⟨400, "Title cannot be empty"⟩, db)
  else
    match db.sections.find? (fun s => s.id == section_id) with
    | none => (.error ⟨404, "Section not found"⟩, db)
    | some _ =>
      let next_sort : Int :=
        nextSort ((db.links.filter (fun l => l.section_id == section_id)).map
          Link.sort_order)
      let l : Link :=
        { id := db.nextLinkId, section_id := section_id, title := title,
          url := url, sort_order := next_sort, created_at := db.now }
      (.ok l,
        { db with links := db.links ++ [l],
                  nextLinkId := db.nextLinkId + 1, now := db.now + 1 })

/-- Endpoint `PUT /links/id` (`update_link`). -/
def update_link (db : DB) (link_id : Int)
    (titleArg urlArg : Option String) : Except HTTPError Unit × DB :=
  match db.links.find? (fun l => l.id == link_id) with
  | none => (.error ⟨404, "Link not found"⟩, db)
  | some l =>
    let titleRes : Except HTTPError String :=
      match titleArg with
      | none => .ok l.title
      | some t =>
        let tt := pyStrip t
        if tt = "" then .error ⟨400, "Title cannot be empty"⟩ else .ok tt
    match titleRes with
    | .error e => (.error e, db)
    | .ok tt =>
      let uu := match urlArg with
        | none => l.url
        | some u => pyStrip u
      (.ok (),
        { db with links := db.links.map (fun k =>
            if k.id == link_id then { k with title := tt, url := uu } else k) })

/-- Endpoint `DELETE /links/id` (`delete_link`). -/
def delete_link (db : DB) (link_id : Int) : Except HTTPError Unit × DB :=
  match db.links.find? (fun l => l.id == link_id) with
  | none => (.error ⟨404, "Link not found"⟩, db)
  | some _ =>
    (.ok (), { db with links := db.links.filter (fun l => !(l.id == link_id)) })

/-- Row selector of the section reorder loop: `WHERE Section.id == sid`. -/
def secSel (sid : Int) (s : Section) : Bool := s.id == sid

/-- Position setter of the section reorder loop: `SET sort_order = idx`. -/
def secSet (idx : Nat) (s : Section) : Section := { s with sort_order := (idx : Int) }

/-- The body of `reorder_sections` after payload validation: membership
filter against the existing section ids, then the enumerated update loop. -/
def reorder_sections_core (db : DB) (ids : List Int) : Nat × DB :=
  let existing := db.sections.map Section.id
  let ordered := ids.filter (fun sid => existing.contains sid)
  (ordered.length, { db with sections := orderLoop secSel secSet ordered 0 db.sections })

/-- Endpoint `PUT /sections/reorder` (`reorder_sections`), including the payload
validator: a 422 on an empty sanitized list, otherwise the core loop. -/
def reorder_sections (db : DB) (raw : List RawEntry) : Except HTTPError Nat × DB :=
  match normalize_ids raw with
  | .error m => (.error ⟨422, m⟩, db)
  | .ok ids =>
    let r := reorder_sections_core db ids
    (.ok r.1, r.2)

/-- Row selector of the link reorder loop:
`WHERE Link.id == lid AND Link.section_id == section_id`. -/
def linkSel (section_id lid : Int) (l : Link) : Bool :=
  l.id == lid && l.section_id == section_id

/-- Position setter of the link reorder loop: `SET sort_order = idx`. -/
def linkSet (idx : Nat) (l : Link) : Link := { l with sort_order := (idx : Int) }

/-- The body of `reorder_links` after payload validation: membership
filter against the ids of that section's links, then the update loop.
Note the handler never checks that the section itself exists. -/
def reorder_links_core (db : DB) (section_id : Int) (ids : List Int) : Nat × DB :=
  let existing := (db.links.filter (fun l => l.section_id == section_id)).map Link.id
  let ordered := ids.filter (fun lid => existing.contains lid)
  (ordered.length,
    { db with links := orderLoop (linkSel section_id) linkSet ordered 0 db.links })

/-- Endpoint `PUT /sections/id/links/reorder` (`reorder_links`). -/
def reorder_links (db : DB) (section_id : Int) (raw : List RawEntry) :
    Except HTTPError Nat × DB :=
  match normalize_ids raw with
  | .error m => (.error ⟨422, m⟩, db)
  | .ok ids =>
    let r := reorder_links_core db section_id ids
    (.ok r.1, r.2)

/-! ## The reorder loop, characterised row by row

`orderLoop` runs the enumerated `UPDATE` statements sequentially; since
each statement rewrites whole rows in place, the net effect on a row is
decided by the last entry of the id list that selects it. -/

theorem updateWhere_eq_map {α : Type} (p : α → Bool) (f : α → α) (xs : List α) :
    updateWhere p f xs = xs.map (fun x => if p x then f x else x) := rfl

theorem orderLoop_eq_map {α : Type} (sel : Int → α → Bool) (setPos : Nat → α → α)
    (hsel : ∀ i x s, sel s (setPos i x) = sel s x)
    (hover : ∀ i j x, setPos i (setPos j x) = setPos i x) :
    ∀ (ordered : List Int) (idx : Nat) (xs : List α),
      orderLoop sel setPos ordered idx xs
        = xs.map (fun x =>
            match lastHitIdx (fun s => sel s x) ordered with
            | none => x
            | some i => setPos (idx + i) x) := by
  intro ordered
  induction ordered with
  | nil =>
    intro idx xs
    show xs = xs.map (fun x => x)
    rw [List.map_id']
  | cons sid rest ih =>
    intro idx xs
    rw [orderLoop, ih (idx + 1), updateWhere_eq_map, List.map_map]
    apply List.map_congr_left
    intro x _
    simp only [Function.comp]
    have hpred : (fun s => sel s (if sel sid x then setPos idx x else x))
        = (fun s => sel s x) := by
      funext s
      by_cases h : sel sid x = true
      · rw [if_pos h, hsel]
      · rw [if_neg h]
    rw [hpred]
    show (match lastHitIdx (fun s => sel s x) rest with
          | none => if sel sid x then setPos idx x else x
          | some i => setPos (idx + 1 + i) (if sel sid x then setPos idx x else x))
        = (match lastHitIdx (fun s => sel s x) (sid :: rest) with
          | none => x
          | some i => setPos (idx + i) x)
    rw [lastHitIdx]
    cases hrest : lastHitIdx (fun s => sel s x) rest with
    | some i =>
      have harith : idx + 1 + i = idx + (i + 1) := by omega
      by_cases h : sel sid x = true
      · simp only [if_pos h, hover, harith]
      · simp only [if_neg h, harith]
    | none =>
      by_cases h : sel sid x = true
      · simp only [if_pos h, Nat.add_zero]
      · simp only [if_neg h]

theorem orderLoop_map_proj {α β : Type} (sel : Int → α → Bool) (setPos : Nat → α → α)
    (hsel : ∀ i x s, sel s (setPos i x) = sel s x)
    (hover : ∀ i j x, setPos i (setPos j x) = setPos i x)
    (g : α → β) (hproj : ∀ i x, g (setPos i x) = g x)
    (ordered : List Int) (idx : Nat) (xs : List α) :
    (orderLoop sel setPos ordered idx xs).map g = xs.map g := by
  rw [orderLoop_eq_map sel setPos hsel hover, List.map_map]
  apply List.map_congr_left
  intro x _
  simp only [Function.comp]
  cases lastHitIdx (fun s => sel s x) ordered with
  | none => rfl
  | some i => exact hproj (idx + i) x

theorem orderLoop_length {α : Type} (sel : Int → α → Bool) (setPos : Nat → α → α)
    (hsel : ∀ i x s, sel s (setPos i x) = sel s x)
    (hover : ∀ i j x, setPos i (setPos j x) = setPos i x)
    (ordered : List Int) (idx : Nat) (xs : List α) :
    (orderLoop sel setPos ordered idx xs).length = xs.length := by
  rw [orderLoop_eq_map sel setPos hsel hover, List.length_map]

/-! ### Last-hit index facts -/

theorem lastHitIdx_eq_none {p : Int → Bool} :
    ∀ {l : List Int}, (∀ x ∈ l, p x = false) → lastHitIdx p l = none := by
  intro l
  induction l with
  | nil => intro _; rfl
  | cons x xs ih =>
    intro h
    rw [lastHitIdx, ih (fun y hy => h y (List.mem_cons_of_mem x hy))]
    simp [h x (List.mem_cons_self x xs)]

theorem forall_false_of_lastHitIdx_none {p : Int → Bool} :
    ∀ {l : List Int}, lastHitIdx p l = none → ∀ x ∈ l, p x = false := by
  intro l
  induction l with
  | nil => intro _ x hx; cases hx
  | cons y ys ih =>
    intro h x hx
    rw [lastHitIdx] at h
    cases hys : lastHitIdx p ys with
    | some i => rw [hys] at h; cases h
    | none =>
      rw [hys] at h
      by_cases hy : p y = true
      · rw [if_pos hy] at h; cases h
      · rcases List.mem_cons.mp hx with rfl | hmem
        · exact Bool.eq_false_iff.mpr hy
        · exact ih hys x hmem

theorem lastHitIdx_spec {p : Int → Bool} :
    ∀ {l : List Int} {i : Nat}, lastHitIdx p l = some i →
      ∃ h : i < l.length, p (l.get ⟨i, h⟩) = true ∧
        ∀ j (hj : j < l.length), i < j → p (l.get ⟨j, hj⟩) = false := by
  intro l
  induction l with
  | nil => intro i h; cases h
  | cons y ys ih =>
    intro i h
    rw [lastHitIdx] at h
    cases hys : lastHitIdx p ys with
    | some k =>
      rw [hys] at h
      cases h
      obtain ⟨hk, hpk, hafter⟩ := ih hys
      refine ⟨by simpa using Nat.succ_lt_succ hk, hpk, ?_⟩
      intro j hj hlt
      match j, hj, hlt with
      | j + 1, hj, hlt =>
        exact hafter j (Nat.lt_of_succ_lt_succ hj) (Nat.lt_of_succ_lt_succ hlt)
    | none =>
      rw [hys] at h
      by_cases hy : p y = true
      · rw [if_pos hy] at h
        cases h
        refine ⟨Nat.succ_pos _, hy, ?_⟩
        intro j hj hlt
        match j, hj, hlt with
        | j + 1, hj, _ =>
          exact forall_false_of_lastHitIdx_none hys _
            (List.get_mem ys j (Nat.lt_of_succ_lt_succ hj))
      · rw [if_neg hy] at h; cases h

/-- Index `i` is the position of the last occurrence of `a` in `l`. -/
def IsLastOcc (a : Int) (l : List Int) (i : Nat) : Prop :=
  ∃ h : i < l.length, l.get ⟨i, h⟩ = a ∧
    ∀ j (hj : j < l.length), l.get ⟨j, hj⟩ = a → j ≤ i

theorem lastHitIdx_of_isLastOcc {a : Int} {l : List Int} {i : Nat}
    (h : IsLastOcc a l i) : lastHitIdx (fun s => a == s) l = some i := by
  obtain ⟨hi, hget, hmax⟩ := h
  cases hlast : lastHitIdx (fun s => a == s) l with
  | none =>
    exfalso
    have := forall_false_of_lastHitIdx_none hlast (l.get ⟨i, hi⟩) (List.get_mem l i hi)
    rw [hget] at this
    simp at this
  | some k =>
    obtain ⟨hk, hpk, hafter⟩ := lastHitIdx_spec hlast
    have hka : l.get ⟨k, hk⟩ = a := (eq_of_beq hpk).symm
    have h1 : k ≤ i := hmax k hk hka
    have h2 : i ≤ k := by
      by_contra hcon
      have hik : k < i := by omega
      have := hafter i hi hik
      rw [hget] at this
      simp at this
    have : k = i := by omega
    rw [this]

theorem isLastOcc_of_nodup {l : List Int} (hnd : l.Nodup) (i : Nat)
    (hi : i < l.length) : IsLastOcc (l.get ⟨i, hi⟩) l i := by
  refine ⟨hi, rfl, ?_⟩
  intro j hj heq
  have hfin : (⟨j, hj⟩ : Fin l.length) = ⟨i, hi⟩ := (hnd.get_inj_iff).mp heq
  have hval : j = i := congrArg Fin.val hfin
  omega

theorem lastHitIdx_of_not_mem {a : Int} {l : List Int} (h : a ∉ l) :
    lastHitIdx (fun s => a == s) l = none := by
  apply lastHitIdx_eq_none
  intro x hx
  by_cases hax : a = x
  · exact absurd (hax ▸ hx) h
  · simpa using hax

/-! ### Instantiations for the two sibling sets -/

theorem secSel_secSet (i : Nat) (x : Section) (s : Int) :
    secSel s (secSet i x) = secSel s x := rfl

theorem secSet_secSet (i j : Nat) (x : Section) : secSet i (secSet j x) = secSet i x := rfl

theorem linkSel_linkSet (target : Int) (i : Nat) (x : Link) (s : Int) :
    linkSel target s (linkSet i x) = linkSel target s x := rfl

theorem linkSet_linkSet (i j : Nat) (x : Link) : linkSet i (linkSet j x) = linkSet i x := rfl

/-! ### Sanitizer facts -/

theorem sanitize_cons (x : RawEntry) (xs : List RawEntry) :
    sanitize (x :: xs) = match entryToInt x with
      | some i => if 0 < i then i :: sanitize xs else sanitize xs
      | none => sanitize xs := by
  unfold sanitize
  rw [List.filterMap_cons]
  cases hx : entryToInt x with
  | none => simp [hx]
  | some i =>
    by_cases hi : 0 < i <;> simp [hx, hi]

theorem sanitize_map_intE : ∀ {P : List Int}, (∀ a ∈ P, 0 < a) →
    sanitize (P.map RawEntry.intE) = P := by
  intro P
  induction P with
  | nil => intro _; rfl
  | cons a as ih =>
    intro hpos
    have ha : 0 < a := hpos a (List.mem_cons_self a as)
    rw [List.map_cons, sanitize_cons]
    show (if 0 < a then a :: sanitize (as.map RawEntry.intE)
          else sanitize (as.map RawEntry.intE)) = a :: as
    rw [if_pos ha, ih (fun b hb => hpos b (List.mem_cons_of_mem a hb))]

theorem pos_of_mem_sanitize {raw : List RawEntry} :
    ∀ a ∈ sanitize raw, 0 < a := by
  intro a ha
  obtain ⟨x, _, hfx⟩ := List.mem_filterMap.mp ha
  cases hx : entryToInt x with
  | none => rw [hx] at hfx; cases hfx
  | some i =>
    rw [hx] at hfx
    by_cases hi : 0 < i
    · have hai : a = i := by simpa [hi] using hfx.symm
      rw [hai]
      exact hi
    · simp [hi] at hfx

theorem normalize_ids_eq_ok {raw : List RawEntry} {ids : List Int} :
    normalize_ids raw = .ok ids ↔ sanitize raw = ids ∧ ids ≠ [] := by
  unfold normalize_ids
  by_cases h : sanitize raw = []
  · rw [if_pos h]
    constructor
    · intro hc; cases hc
    · intro ⟨h1, h2⟩; exact absurd (h1 ▸ h) h2
  · rw [if_neg h]
    constructor
    · intro hok
      cases hok
      exact ⟨rfl, h⟩
    · intro ⟨h1, _⟩
      rw [h1]

theorem normalize_ids_map_intE {P : List Int} (hpos : ∀ a ∈ P, 0 < a)
    (hne : P ≠ []) : normalize_ids (P.map RawEntry.intE) = .ok P :=
  normalize_ids_eq_ok.mpr ⟨sanitize_map_intE hpos, hne⟩

/-! ### Stable-sort facts -/

theorem insertSorted_perm (key : α → Int) (x : α) :
    ∀ l, (insertSorted key x l).Perm (x :: l) := by
  intro l
  induction l with
  | nil => exact List.Perm.refl _
  | cons y ys ih =>
    rw [insertSorted]
    by_cases h : key x ≤ key y
    · rw [if_pos h]
    · rw [if_neg h]
      exact (List.Perm.cons y ih).trans (List.Perm.swap x y ys)

theorem orderBy_perm (key : α → Int) : ∀ l, (orderBy key l).Perm l := by
  intro l
  induction l with
  | nil => exact List.Perm.refl _
  | cons x xs ih =>
    rw [orderBy]
    exact (insertSorted_perm key x (orderBy key xs)).trans (List.Perm.cons x ih)

theorem mem_insertSorted {key : α → Int} {x a : α} {l : List α} :
    a ∈ insertSorted key x l ↔ a = x ∨ a ∈ l := by
  rw [(insertSorted_perm key x l).mem_iff, List.mem_cons]

theorem pairwise_insertSorted (key : α → Int) (x : α) :
    ∀ {l : List α}, l.Pairwise (fun a b => key a ≤ key b) →
      (insertSorted key x l).Pairwise (fun a b => key a ≤ key b) := by
  intro l
  induction l with
  | nil => intro _; simp [insertSorted]
  | cons y ys ih =>
    intro h
    rcases List.pairwise_cons.mp h with ⟨hy, hys⟩
    rw [insertSorted]
    by_cases hxy : key x ≤ key y
    · rw [if_pos hxy]
      apply List.pairwise_cons.mpr
      refine ⟨?_, h⟩
      intro b hb
      rcases List.mem_cons.mp hb with rfl | hmem
      · exact hxy
      · exact le_trans hxy (hy b hmem)
    · rw [if_neg hxy]
      apply List.pairwise_cons.mpr
      refine ⟨?_, ih hys⟩
      intro b hb
      rcases mem_insertSorted.mp hb with rfl | hmem
      · exact le_of_not_le hxy
      · exact hy b hmem

theorem pairwise_orderBy (key : α → Int) :
    ∀ l : List α, (orderBy key l).Pairwise (fun a b => key a ≤ key b) := by
  intro l
  induction l with
  | nil => exact List.Pairwise.nil
  | cons x xs ih => exact pairwise_insertSorted key x ih

/-! ### Maximum facts -/

theorem maxSortOf_eq_none : ∀ {l : List Int}, maxSortOf l = none ↔ l = [] := by
  intro l
  cases l with
  | nil => simp [maxSortOf]
  | cons v vs =>
    cases hvs : maxSortOf vs <;> simp [maxSortOf, hvs]

theorem maxSortOf_le : ∀ {l : List Int} {m : Int}, maxSortOf l = some m →
    ∀ v ∈ l, v ≤ m := by
  intro l
  induction l with
  | nil => intro m h; cases h
  | cons v vs ih =>
    intro m h w hw
    rw [maxSortOf] at h
    cases hvs : maxSortOf vs with
    | none =>
      rw [hvs] at h
      cases h
      rcases List.mem_cons.mp hw with rfl | hmem
      · exact le_refl _
      · rw [maxSortOf_eq_none.mp hvs] at hmem
        cases hmem
    | some m' =>
      rw [hvs] at h
      cases h
      rcases List.mem_cons.mp hw with rfl | hmem
      · exact le_max_left _ _
      · exact le_trans (ih hvs w hmem) (le_max_right _ _)

theorem maxSortOf_mem : ∀ {l : List Int} {m : Int}, maxSortOf l = some m → m ∈ l := by
  intro l
  induction l with
  | nil => intro m h; cases h
  | cons v vs ih =>
    intro m h
    rw [maxSortOf] at h
    cases hvs : maxSortOf vs with
    | none =>
      rw [hvs] at h
      cases h
      exact List.mem_cons_self _ _
    | some m' =>
      rw [hvs] at h
      cases h
      rcases max_choice v m' with hc | hc
      · rw [hc]; exact List.mem_cons_self _ _
      · rw [hc]; exact List.mem_cons_of_mem v (ih hvs)

theorem nextSort_nil : nextSort [] = 0 := rfl

theorem nextSort_gt {vals : List Int} : ∀ v ∈ vals, v < nextSort vals := by
  intro v hv
  cases hmax : maxSortOf vals with
  | none =>
    rw [maxSortOf_eq_none.mp hmax] at hv
    cases hv
  | some m =>
    have h1 : nextSort vals = m + 1 := by
      unfold nextSort
      rw [hmax]
    have h2 := maxSortOf_le hmax v hv
    omega

theorem nextSort_eq_succ {vals : List Int} (hne : vals ≠ []) :
    ∃ v ∈ vals, nextSort vals = v + 1 := by
  cases hmax : maxSortOf vals with
  | none => exact absurd (maxSortOf_eq_none.mp hmax) hne
  | some m =>
    refine ⟨m, maxSortOf_mem hmax, ?_⟩
    unfold nextSort
    rw [hmax]

/-! ### The reorder endpoints, characterised -/

/-- The sections table after the reorder loop: each row is reassigned the
position of the last entry of the surviving id list that selects it, and
left alone when no entry does. -/
theorem reorder_sections_core_sections (db : DB) (ids : List Int) :
    (reorder_sections_core db ids).2.sections
      = db.sections.map (fun s =>
          match lastHitIdx (fun sid => secSel sid s)
              (ids.filter (fun sid => (db.sections.map Section.id).contains sid)) with
          | none => s
          | some i => secSet i s) := by
  show orderLoop secSel secSet
      (ids.filter (fun sid => (db.sections.map Section.id).contains sid)) 0 db.sections = _
  rw [orderLoop_eq_map secSel secSet secSel_secSet secSet_secSet]
  apply List.map_congr_left
  intro s _
  cases lastHitIdx (fun sid => secSel sid s)
      (ids.filter (fun sid => (db.sections.map Section.id).contains sid)) with
  | none => rfl
  | some i =>
    show secSet (0 + i) s = secSet i s
    rw [Nat.zero_add]

/-- The links table after the link reorder loop, analogously. -/
theorem reorder_links_core_links (db : DB) (target : Int) (ids : List Int) :
    (reorder_links_core db target ids).2.links
      = db.links.map (fun l =>
          match lastHitIdx (fun lid => linkSel target lid l)
              (ids.filter (fun lid =>
                ((db.links.filter (fun k => k.section_id == target)).map Link.id).contains lid)) with
          | none => l
          | some i => linkSet i l) := by
  show orderLoop (linkSel target) linkSet
      (ids.filter (fun lid =>
        ((db.links.filter (fun k => k.section_id == target)).map Link.id).contains lid))
      0 db.links = _
  rw [orderLoop_eq_map (linkSel target) linkSet (linkSel_linkSet target) linkSet_linkSet]
  apply List.map_congr_left
  intro l _
  cases lastHitIdx (fun lid => linkSel target lid l)
      (ids.filter (fun lid =>
        ((db.links.filter (fun k => k.section_id == target)).map Link.id).contains lid)) with
  | none => rfl
  | some i =>
    show linkSet (0 + i) l = linkSet i l
    rw [Nat.zero_add]

theorem reorder_sections_core_fst (db : DB) (ids : List Int) :
    (reorder_sections_core db ids).1
      = (ids.filter (fun sid => (db.sections.map Section.id).contains sid)).length := rfl

theorem reorder_links_core_fst (db : DB) (target : Int) (ids : List Int) :
    (reorder_links_core db target ids).1
      = (ids.filter (fun lid =>
          ((db.links.filter (fun k => k.section_id == target)).map Link.id).contains lid)).length := rfl

theorem reorder_sections_core_links (db : DB) (ids : List Int) :
    (reorder_sections_core db ids).2.links = db.links := rfl

theorem reorder_links_core_sections (db : DB) (target : Int) (ids : List Int) :
    (reorder_links_core db target ids).2.sections = db.sections := rfl

/-! ## Concrete states used by witnesses and counterexamples -/

/-- The store right after `Base.metadata.create_all`: no rows. -/
def emptyDB : DB := ⟨[], [], 1, 1, 0⟩

/-- One section (id 1) holding one link (id 5). -/
def dbOneSection : DB :=
  ⟨[⟨1, "A", "slate", 0, 0⟩], [⟨5, 1, "t", "u", 0, 0⟩], 2, 6, 1⟩

/-- Two sections tied at `sort_order = 0` whose insertion order disagrees
with their alphabetical order, and two links of section 1 tied at
`sort_order = 0` whose insertion order is ascending `created_at`. -/
def dbTied : DB :=
  ⟨[⟨1, "B", "slate", 0, 0⟩, ⟨2, "A", "slate", 0, 1⟩],
   [⟨1, 1, "old", "u1", 0, 0⟩, ⟨2, 1, "new", "u2", 0, 1⟩], 3, 3, 2⟩

/-- Two sections with distinct sort positions, no links. -/
def dbTwoSections : DB :=
  ⟨[⟨1, "A", "slate", 0, 0⟩, ⟨2, "B", "slate", 1, 1⟩], [], 3, 1, 2⟩

/-! ## Claim C2 -/

/-- C2 (counterexample): section 2 does not exist in `dbOneSection`, yet
`reorder_links` on it succeeds with count 0 instead of returning the
NotFound error the claim requires. -/
theorem c2_counterexample :
    reorder_links dbOneSection 2 [RawEntry.intE 5] = (Except.ok 0, dbOneSection)
    ∧ (reorder_links dbOneSection 2 [RawEntry.intE 5]).1
        ≠ Except.error ⟨404, "Section not found"⟩ := by decide

/-- C2 (amended): `reorder_links` never checks that the section exists.
For any `sectionId` owning no links — in particular any non-existent
section — and any payload surviving sanitization, it succeeds with count
0 and leaves the store unchanged. -/
theorem c2_amended_no_section_check (db : DB) (sid : Int) (raw : List RawEntry)
    (hnolinks : ∀ l ∈ db.links, l.section_id ≠ sid)
    (hclean : sanitize raw ≠ []) :
    reorder_links db sid raw = (Except.ok 0, db) := by
  have hn : normalize_ids raw = .ok (sanitize raw) := normalize_ids_eq_ok.mpr ⟨rfl, hclean⟩
  unfold reorder_links
  rw [hn]
  have hfilter : db.links.filter (fun l => l.section_id == sid) = [] := by
    apply List.filter_eq_nil_iff.mpr
    intro l hl
    simpa using hnolinks l hl
  have hord : (sanitize raw).filter
      (fun lid => ([] : List Int).contains lid) = [] := by
    apply List.filter_eq_nil_iff.mpr
    intro a _
    simp [List.contains]
  have hcore : reorder_links_core db sid (sanitize raw) = (0, db) := by
    simp only [reorder_links_core, hfilter, List.map_nil, hord]
    rfl
  show (Except.ok (reorder_links_core db sid (sanitize raw)).1,
        (reorder_links_core db sid (sanitize raw)).2) = (Except.ok 0, db)
  rw [hcore]

/-- Witness for the amended C2 at a concrete store. -/
theorem c2_witness :
    ((∀ l ∈ dbOneSection.links, l.section_id ≠ 2)
      ∧ sanitize [RawEntry.intE 5] ≠ [])
    ∧ reorder_links dbOneSection 2 [RawEntry.intE 5] = (Except.ok 0, dbOneSection) :=
  ⟨⟨by decide, by decide⟩,
    c2_amended_no_section_check dbOneSection 2 [RawEntry.intE 5] (by decide) (by decide)⟩

/-! ## Claim C3 -/

/-- C3 (counterexample): in `dbTied` both sections share `sort_order` and
both links share `sort_order`, yet `list_sections` yields the sections in
stored order `["B", "A"]` — not the claimed name-ascending `["A", "B"]` —
and the links in stored order `["old", "new"]` — not the claimed
`created_at`-descending `["new", "old"]`. -/
theorem c3_counterexample :
    dbTied.sections.map Section.sort_order = [0, 0]
    ∧ dbTied.links.map Link.sort_order = [0, 0]
    ∧ (list_sections dbTied).map (fun o => o.name) = ["B", "A"]
    ∧ (list_sections dbTied).map (fun o => o.name) ≠ ["A", "B"]
    ∧ (list_sections dbTied).map (fun o => o.links.map (fun k => k.title))
        = [["old", "new"], []]
    ∧ (list_sections dbTied).map (fun o => o.links.map (fun k => k.title))
        ≠ [["new", "old"], []] := by decide

/-- C3 (amended): `list_sections` sorts sections by `sort_order` alone and
each section's links by `sort_order` alone (each a permutation of the
stored rows); no secondary key is applied, so ties come out in stored
order rather than by name or `created_at`. -/
theorem c3_amended_sorted_by_sort_order (db : DB) :
    list_sections db = (orderBy Section.sort_order db.sections).map (sectionOut db)
    ∧ (orderBy Section.sort_order db.sections).Perm db.sections
    ∧ (orderBy Section.sort_order db.sections).Pairwise
        (fun a b => a.sort_order ≤ b.sort_order)
    ∧ ∀ sid : Int,
        (orderBy Link.sort_order (db.links.filter (fun l => l.section_id == sid))).Perm
          (db.links.filter (fun l => l.section_id == sid))
        ∧ (orderBy Link.sort_order
            (db.links.filter (fun l => l.section_id == sid))).Pairwise
            (fun a b => a.sort_order ≤ b.sort_order) :=
  ⟨rfl, orderBy_perm Section.sort_order db.sections,
    pairwise_orderBy Section.sort_order db.sections,
    fun _ => ⟨orderBy_perm Link.sort_order _, pairwise_orderBy Link.sort_order _⟩⟩

/-! ## Claim C4 -/

/-- The garbage payload from the spec's sanitization example. -/
def garbagePayload : List RawEntry :=
  [.strE "7", .strE "undefined", .strE "color", .intE 9]

/-- The already-clean payload it should be equivalent to. -/
def cleanPayload : List RawEntry := [.intE 7, .intE 9]

/-- C4: sanitization drops non-integer, non-positive and malformed
entries, so on every state the garbage payload
`["7", "undefined", "color", 9]` gives exactly the same response (count
included) and the same final state as `[7, 9]`, for both reorder
endpoints. -/
theorem c4_sanitization_equivalence (db : DB) (sid : Int) :
    reorder_sections db garbagePayload = reorder_sections db cleanPayload
    ∧ reorder_links db sid garbagePayload = reorder_links db sid cleanPayload := by
  have h1 : normalize_ids garbagePayload = .ok [7, 9] := by decide
  have h2 : normalize_ids cleanPayload = .ok [7, 9] := by decide
  constructor
  · unfold reorder_sections
    rw [h1, h2]
  · unfold reorder_links
    rw [h1, h2]

/-! ## Claim C5 -/

/-- C5: when every submitted entry is dropped by sanitization, both
reorder endpoints fail with the InvalidInput (422) validation error and
the store is left untouched. -/
theorem c5_empty_sanitized_invalid (db : DB) (sid : Int) (raw : List RawEntry)
    (h : sanitize raw = []) :
    reorder_sections db raw
      = (Except.error ⟨422, "ordered_ids must contain at least one valid integer id"⟩, db)
    ∧ reorder_links db sid raw
      = (Except.error ⟨422, "ordered_ids must contain at least one valid integer id"⟩, db) := by
  have hn : normalize_ids raw
      = .error "ordered_ids must contain at least one valid integer id" := by
    show (if sanitize raw = [] then
        (.error "ordered_ids must contain at least one valid integer id" :
          Except String (List Int))
      else .ok (sanitize raw)) = _
    rw [if_pos h]
  constructor
  · unfold reorder_sections
    rw [hn]
  · unfold reorder_links
    rw [hn]

/-- Witness for C5 on the spec's own example `["x", "y"]`. -/
theorem c5_witness :
    sanitize [RawEntry.strE "x", RawEntry.strE "y"] = []
    ∧ reorder_sections dbOneSection [RawEntry.strE "x", RawEntry.strE "y"]
        = (Except.error ⟨422, "ordered_ids must contain at least one valid integer id"⟩,
            dbOneSection) :=
  ⟨by decide,
    (c5_empty_sanitized_invalid dbOneSection 1
      [RawEntry.strE "x", RawEntry.strE "y"] (by decide)).1⟩

/-! ## Claim C6 -/

/-- C6: ids absent from the targeted sibling set are silently dropped —
the final state equals the one reached by applying only the surviving
ids — and the returned count is the number of ids surviving both
sanitization and the membership filter. -/
theorem c6_membership_filter_and_count (db : DB) (sid : Int)
    (raw : List RawEntry) (ids : List Int)
    (h : normalize_ids raw = .ok ids) :
    (reorder_sections db raw).1
        = Except.ok ((ids.filter (fun a => (db.sections.map Section.id).contains a)).length)
    ∧ (reorder_sections db raw).2
        = (reorder_sections_core db
            (ids.filter (fun a => (db.sections.map Section.id).contains a))).2
    ∧ (reorder_links db sid raw).1
        = Except.ok ((ids.filter (fun a =>
            ((db.links.filter (fun l => l.section_id == sid)).map Link.id).contains a)).length)
    ∧ (reorder_links db sid raw).2
        = (reorder_links_core db sid
            (ids.filter (fun a =>
              ((db.links.filter (fun l => l.section_id == sid)).map Link.id).contains a))).2 := by
  have hsec : (ids.filter (fun a => (db.sections.map Section.id).contains a)).filter
      (fun a => (db.sections.map Section.id).contains a)
      = ids.filter (fun a => (db.sections.map Section.id).contains a) := by
    rw [List.filter_filter]
    have : (fun a => (db.sections.map Section.id).contains a
          && (db.sections.map Section.id).contains a)
        = (fun a => (db.sections.map Section.id).contains a) :=
      funext fun a => Bool.and_self _
    rw [this]
  have hlnk : (ids.filter (fun a =>
        ((db.links.filter (fun l => l.section_id == sid)).map Link.id).contains a)).filter
      (fun a => ((db.links.filter (fun l => l.section_id == sid)).map Link.id).contains a)
      = ids.filter (fun a =>
          ((db.links.filter (fun l => l.section_id == sid)).map Link.id).contains a) := by
    rw [List.filter_filter]
    have : (fun a => ((db.links.filter (fun l => l.section_id == sid)).map Link.id).contains a
          && ((db.links.filter (fun l => l.section_id == sid)).map Link.id).contains a)
        = (fun a => ((db.links.filter (fun l => l.section_id == sid)).map Link.id).contains a) :=
      funext fun a => Bool.and_self _
    rw [this]
  have hcoreS : reorder_sections_core db
      (ids.filter (fun a => (db.sections.map Section.id).contains a))
      = reorder_sections_core db ids := by
    simp only [reorder_sections_core, hsec]
  have hcoreL : reorder_links_core db sid
      (ids.filter (fun a =>
        ((db.links.filter (fun l => l.section_id == sid)).map Link.id).contains a))
      = reorder_links_core db sid ids := by
    simp only [reorder_links_core, hlnk]
  refine ⟨?_, ?_, ?_, ?_⟩
  · unfold reorder_sections
    rw [h]
    rfl
  · unfold reorder_sections
    rw [h, hcoreS]
  · unfold reorder_links
    rw [h]
    rfl
  · unfold reorder_links
    rw [h, hcoreL]

/-- Witness for C6: reordering `dbOneSection`'s sections with `[1, 99]`
drops the stale id 99 and reports count 1. -/
theorem c6_witness :
    normalize_ids [RawEntry.intE 1, RawEntry.intE 99] = Except.ok [1, 99]
    ∧ (reorder_sections dbOneSection [RawEntry.intE 1, RawEntry.intE 99]).1 = Except.ok 1 := by
  refine ⟨by decide, ?_⟩
  have h := (c6_membership_filter_and_count dbOneSection 1
    [RawEntry.intE 1, RawEntry.intE 99] [1, 99] (by decide)).1
  rw [h]
  decide

/-! ## Claim C1 -/

/-- C1: for a duplicate-free list `P` of ids all belonging to the sibling
set, reorder assigns `sort_order = i` to the entity carrying the `i`-th
id of `P` (all other fields unchanged), leaves every sibling whose id is
not in `P` untouched, and reports `P.length` repositioned rows — for
sections and for the links of any one section. -/
theorem c1_reorder_assigns_positions (db : DB) (P : List Int)
    (hne : P ≠ []) (hnd : P.Nodup) (hpos : ∀ a ∈ P, 0 < a) :
    ((∀ a ∈ P, a ∈ db.sections.map Section.id) →
      (reorder_sections db (P.map RawEntry.intE)).1 = Except.ok P.length
      ∧ (∀ (i : Nat) (hi : i < P.length), ∀ s ∈ db.sections,
          s.id = P.get ⟨i, hi⟩ →
          secSet i s ∈ (reorder_sections db (P.map RawEntry.intE)).2.sections)
      ∧ (∀ s ∈ db.sections, s.id ∉ P →
          s ∈ (reorder_sections db (P.map RawEntry.intE)).2.sections))
    ∧ (∀ sid : Int,
        (∀ a ∈ P, a ∈ (db.links.filter (fun l => l.section_id == sid)).map Link.id) →
        (reorder_links db sid (P.map RawEntry.intE)).1 = Except.ok P.length
        ∧ (∀ (i : Nat) (hi : i < P.length), ∀ l ∈ db.links,
            l.id = P.get ⟨i, hi⟩ → l.section_id = sid →
            linkSet i l ∈ (reorder_links db sid (P.map RawEntry.intE)).2.links)
        ∧ (∀ l ∈ db.links, l.id ∉ P ∨ l.section_id ≠ sid →
            l ∈ (reorder_links db sid (P.map RawEntry.intE)).2.links)) := by
  have hnorm := normalize_ids_map_intE hpos hne
  constructor
  · intro hmemb
    have hfilt : P.filter (fun a => (db.sections.map Section.id).contains a) = P := by
      apply List.filter_eq_self.mpr
      intro a ha
      simpa [List.contains] using List.elem_eq_true_of_mem (hmemb a ha)
    have heq : (reorder_sections db (P.map RawEntry.intE)).2.sections
        = db.sections.map (fun s =>
            match lastHitIdx (fun sid => s.id == sid) P with
            | none => s
            | some i => secSet i s) := by
      unfold reorder_sections
      rw [hnorm]
      show (reorder_sections_core db P).2.sections = _
      rw [reorder_sections_core_sections db P]
      simp only [hfilt, secSel]
    refine ⟨?_, ?_, ?_⟩
    · unfold reorder_sections
      rw [hnorm]
      show Except.ok (reorder_sections_core db P).1 = _
      rw [reorder_sections_core_fst, hfilt]
    · intro i hi s hs hsid
      rw [heq]
      have hocc : IsLastOcc s.id P i := by
        rw [hsid]
        exact isLastOcc_of_nodup hnd i hi
      have hlast := lastHitIdx_of_isLastOcc hocc
      have hval : (match lastHitIdx (fun sid => s.id == sid) P with
          | none => s
          | some j => secSet j s) = secSet i s := by
        rw [hlast]
      exact List.mem_map.mpr ⟨s, hs, hval⟩
    · intro s hs hnin
      rw [heq]
      have hlast := lastHitIdx_of_not_mem hnin
      have hval : (match lastHitIdx (fun sid => s.id == sid) P with
          | none => s
          | some j => secSet j s) = s := by
        rw [hlast]
      exact List.mem_map.mpr ⟨s, hs, hval⟩
  · intro sid hmemb
    have hfilt : P.filter (fun a =>
        ((db.links.filter (fun l => l.section_id == sid)).map Link.id).contains a) = P := by
      apply List.filter_eq_self.mpr
      intro a ha
      simpa [List.contains] using List.elem_eq_true_of_mem (hmemb a ha)
    have heq : (reorder_links db sid (P.map RawEntry.intE)).2.links
        = db.links.map (fun l =>
            match lastHitIdx (fun lid => l.id == lid && l.section_id == sid) P with
            | none => l
            | some i => linkSet i l) := by
      unfold reorder_links
      rw [hnorm]
      show (reorder_links_core db sid P).2.links = _
      rw [reorder_links_core_links db sid P]
      simp only [hfilt, linkSel]
    refine ⟨?_, ?_, ?_⟩
    · unfold reorder_links
      rw [hnorm]
      show Except.ok (reorder_links_core db sid P).1 = _
      rw [reorder_links_core_fst, hfilt]
    · intro i hi l hl hlid hlsec
      rw [heq]
      have hsec : (l.section_id == sid) = true := by simp [hlsec]
      have hpred : (fun lid => l.id == lid && l.section_id == sid)
          = (fun lid => l.id == lid) := by
        funext lid
        rw [hsec, Bool.and_true]
      have hocc : IsLastOcc l.id P i := by
        rw [hlid]
        exact isLastOcc_of_nodup hnd i hi
      have hlast := lastHitIdx_of_isLastOcc hocc
      have hval : (match lastHitIdx (fun lid => l.id == lid && l.section_id == sid) P with
          | none => l
          | some j => linkSet j l) = linkSet i l := by
        rw [hpred, hlast]
      exact List.mem_map.mpr ⟨l, hl, hval⟩
    · intro l hl hcase
      rw [heq]
      have hlast : lastHitIdx (fun lid => l.id == lid && l.section_id == sid) P = none := by
        apply lastHitIdx_eq_none
        intro x hx
        rcases hcase with hnin | hsec
        · have : (l.id == x) = false := by
            by_cases he : l.id = x
            · exact absurd (he ▸ hx) hnin
            · simpa using he
          rw [this, Bool.false_and]
        · have : (l.section_id == sid) = false := by simpa using hsec
          rw [this, Bool.and_false]
      have hval : (match lastHitIdx (fun lid => l.id == lid && l.section_id == sid) P with
          | none => l
          | some j => linkSet j l) = l := by
        rw [hlast]
      exact List.mem_map.mpr ⟨l, hl, hval⟩

/-- Witness for C1: reordering `dbTwoSections` with `[2, 1]` gives section
2 `sort_order` 0 and section 1 `sort_order` 1. -/
theorem c1_witness :
    ([2, 1] ≠ ([] : List Int)
      ∧ ([2, 1] : List Int).Nodup
      ∧ (∀ a ∈ ([2, 1] : List Int), 0 < a)
      ∧ (∀ a ∈ ([2, 1] : List Int), a ∈ dbTwoSections.sections.map Section.id))
    ∧ (reorder_sections dbTwoSections
        ([2, 1].map RawEntry.intE)).1 = Except.ok 2 := by
  refine ⟨⟨by decide, by decide, by decide, by decide⟩, ?_⟩
  exact ((c1_reorder_assigns_positions dbTwoSections [2, 1]
    (by decide) (by decide) (by decide)).1 (by decide)).1

/-! ## Claim C10 -/

/-- C10: when the surviving id list contains an id several times, each
occurrence is assigned in turn, so the row ends with the position of the
id's last occurrence, and the returned count counts every occurrence
(the length of the surviving list, duplicates included). -/
theorem c10_duplicate_ids_last_wins (db : DB) (P : List Int) (sid : Int)
    (hne : P ≠ []) (hpos : ∀ a ∈ P, 0 < a) :
    ((reorder_sections db (P.map RawEntry.intE)).1
        = Except.ok ((P.filter (fun a => (db.sections.map Section.id).contains a)).length)
      ∧ (∀ s ∈ db.sections, ∀ i : Nat,
          IsLastOcc s.id (P.filter (fun a => (db.sections.map Section.id).contains a)) i →
          secSet i s ∈ (reorder_sections db (P.map RawEntry.intE)).2.sections))
    ∧ ((reorder_links db sid (P.map RawEntry.intE)).1
        = Except.ok ((P.filter (fun a =>
            ((db.links.filter (fun l => l.section_id == sid)).map Link.id).contains a)).length)
      ∧ (∀ l ∈ db.links, l.section_id = sid → ∀ i : Nat,
          IsLastOcc l.id (P.filter (fun a =>
            ((db.links.filter (fun l2 => l2.section_id == sid)).map Link.id).contains a)) i →
          linkSet i l ∈ (reorder_links db sid (P.map RawEntry.intE)).2.links)) := by
  have hnorm := normalize_ids_map_intE hpos hne
  constructor
  · constructor
    · unfold reorder_sections
      rw [hnorm]
      show Except.ok (reorder_sections_core db P).1 = _
      rw [reorder_sections_core_fst]
    · intro s hs i hocc
      have heq : (reorder_sections db (P.map RawEntry.intE)).2.sections
          = db.sections.map (fun s2 =>
              match lastHitIdx (fun sid2 => s2.id == sid2)
                  (P.filter (fun a => (db.sections.map Section.id).contains a)) with
              | none => s2
              | some j => secSet j s2) := by
        unfold reorder_sections
        rw [hnorm]
        show (reorder_sections_core db P).2.sections = _
        rw [reorder_sections_core_sections db P]
        simp only [secSel]
      rw [heq]
      have hlast := lastHitIdx_of_isLastOcc hocc
      have hval : (match lastHitIdx (fun sid2 => s.id == sid2)
            (P.filter (fun a => (db.sections.map Section.id).contains a)) with
          | none => s
          | some j => secSet j s) = secSet i s := by
        rw [hlast]
      exact List.mem_map.mpr ⟨s, hs, hval⟩
  · constructor
    · unfold reorder_links
      rw [hnorm]
      show Except.ok (reorder_links_core db sid P).1 = _
      rw [reorder_links_core_fst]
    · intro l hl hlsec i hocc
      have heq : (reorder_links db sid (P.map RawEntry.intE)).2.links
          = db.links.map (fun l2 =>
              match lastHitIdx (fun lid => l2.id == lid && l2.section_id == sid)
                  (P.filter (fun a =>
                    ((db.links.filter (fun l3 => l3.section_id == sid)).map Link.id).contains a)) with
              | none => l2
              | some j => linkSet j l2) := by
        unfold reorder_links
        rw [hnorm]
        show (reorder_links_core db sid P).2.links = _
        rw [reorder_links_core_links db sid P]
        simp only [linkSel]
      rw [heq]
      have hsec2 : (l.section_id == sid) = true := by simp [hlsec]
      have hpred : (fun lid => l.id == lid && l.section_id == sid)
          = (fun lid => l.id == lid) := by
        funext lid
        rw [hsec2, Bool.and_true]
      have hlast := lastHitIdx_of_isLastOcc hocc
      have hval : (match lastHitIdx (fun lid => l.id == lid && l.section_id == sid)
            (P.filter (fun a =>
              ((db.links.filter (fun l3 => l3.section_id == sid)).map Link.id).contains a)) with
          | none => l
          | some j => linkSet j l) = linkSet i l := by
        rw [hpred, hlast]
      exact List.mem_map.mpr ⟨l, hl, hval⟩

/-- Witness for C10: reordering `dbOneSection`'s sections with `[1, 1]`
counts both occurrences (count 2, one distinct row) and the row ends at
the last occurrence's position, `sort_order = 1`. -/
theorem c10_witness :
    (([1, 1] : List Int) ≠ [] ∧ (∀ a ∈ ([1, 1] : List Int), 0 < a))
    ∧ (reorder_sections dbOneSection ([1, 1].map RawEntry.intE)).1 = Except.ok 2
    ∧ (reorder_sections dbOneSection
        ([1, 1].map RawEntry.intE)).2.sections.map Section.sort_order = [1] := by
  refine ⟨⟨by decide, by decide⟩, ?_, by decide⟩
  have h := ((c10_duplicate_ids_last_wins dbOneSection [1, 1] 1
    (by decide) (by decide)).1).1
  rw [h]
  decide

/-! ## Claim C7 -/

theorem create_section_success (db : DB) (nameArg : String)
    (hnm : pyStrip nameArg ≠ "")
    (hany : db.sections.any (fun s => s.name == pyStrip nameArg) = false) :
    create_section db nameArg =
      (Except.ok
        { id := db.nextSectionId, name := pyStrip nameArg, color := "slate",
          sort_order := nextSort (db.sections.map Section.sort_order),
          created_at := db.now },
        { db with
          sections := db.sections ++
            [{ id := db.nextSectionId, name := pyStrip nameArg, color := "slate",
               sort_order := nextSort (db.sections.map Section.sort_order),
               created_at := db.now }],
          nextSectionId := db.nextSectionId + 1, now := db.now + 1 }) := by
  simp only [create_section, hany, if_neg hnm]
  rfl

theorem add_link_success (db : DB) (sid : Int) (titleArg urlArg : String)
    (sx : Section) (htitle : pyStrip titleArg ≠ "")
    (hfd : db.sections.find? (fun s => s.id == sid) = some sx) :
    add_link db sid titleArg urlArg =
      (Except.ok
        { id := db.nextLinkId, section_id := sid, title := pyStrip titleArg,
          url := pyStrip urlArg,
          sort_order := nextSort
            ((db.links.filter (fun l => l.section_id == sid)).map Link.sort_order),
          created_at := db.now },
        { db with
          links := db.links ++
            [{ id := db.nextLinkId, section_id := sid, title := pyStrip titleArg,
               url := pyStrip urlArg,
               sort_order := nextSort
                 ((db.links.filter (fun l => l.section_id == sid)).map Link.sort_order),
               created_at := db.now }],
          nextLinkId := db.nextLinkId + 1, now := db.now + 1 }) := by
  simp only [add_link, hfd, if_neg htitle]

/-- C7: a created section is appended with `sort_order` the current
maximum plus one (`0` on an empty table); a created link likewise within
its section; and three links added to a fresh section get positions
`0, 1, 2`. -/
theorem c7_append_at_end (db : DB) (nameArg : String) (sid : Int)
    (titleArg urlArg : String) :
    ((pyStrip nameArg ≠ "" → (∀ s ∈ db.sections, s.name ≠ pyStrip nameArg) →
      ∃ s : Section,
        (create_section db nameArg).2.sections = db.sections ++ [s]
        ∧ (db.sections = [] → s.sort_order = 0)
        ∧ (∀ t ∈ db.sections, t.sort_order < s.sort_order)
        ∧ (db.sections ≠ [] → ∃ t ∈ db.sections, s.sort_order = t.sort_order + 1))
    ∧ (pyStrip titleArg ≠ "" → (∃ s ∈ db.sections, s.id = sid) →
      ∃ l : Link,
        (add_link db sid titleArg urlArg).2.links = db.links ++ [l]
        ∧ l.section_id = sid
        ∧ (db.links.filter (fun k => k.section_id == sid) = [] → l.sort_order = 0)
        ∧ (∀ k ∈ db.links, k.section_id = sid → k.sort_order < l.sort_order)
        ∧ (db.links.filter (fun k => k.section_id == sid) ≠ [] →
            ∃ k ∈ db.links, k.section_id = sid ∧ l.sort_order = k.sort_order + 1)))
    ∧ (add_link (add_link (add_link (create_section emptyDB "S").2
        1 "a" "u1").2 1 "b" "u2").2 1 "c" "u3").2.links.map Link.sort_order = [0, 1, 2] := by
  refine ⟨⟨?_, ?_⟩, by decide⟩
  · intro hnm hfresh
    have hany : db.sections.any (fun s => s.name == pyStrip nameArg) = false := by
      apply List.any_eq_false.mpr
      intro s hs
      simpa using hfresh s hs
    have hres := create_section_success db nameArg hnm hany
    refine ⟨_, by rw [hres], ?_, ?_, ?_⟩
    · intro hemp
      show nextSort (db.sections.map Section.sort_order) = 0
      rw [hemp]
      rfl
    · intro t ht
      show t.sort_order < nextSort (db.sections.map Section.sort_order)
      exact nextSort_gt t.sort_order (List.mem_map_of_mem Section.sort_order ht)
    · intro hne
      show ∃ t ∈ db.sections, nextSort (db.sections.map Section.sort_order)
          = t.sort_order + 1
      have hmne : db.sections.map Section.sort_order ≠ [] := by
        intro hc
        exact hne (List.map_eq_nil_iff.mp hc)
      obtain ⟨v, hv, hveq⟩ := nextSort_eq_succ hmne
      obtain ⟨t, ht, hts⟩ := List.mem_map.mp hv
      exact ⟨t, ht, by rw [hveq, hts]⟩
  · intro htitle hsec
    obtain ⟨s0, hs0, hs0id⟩ := hsec
    have hfind : (db.sections.find? (fun s => s.id == sid)).isSome :=
      List.find?_isSome.mpr ⟨s0, hs0, by simp [hs0id]⟩
    cases hfd : db.sections.find? (fun s => s.id == sid) with
    | none => rw [hfd] at hfind; cases hfind
    | some sx =>
      have hres := add_link_success db sid titleArg urlArg sx htitle hfd
      refine ⟨_, by rw [hres], rfl, ?_, ?_, ?_⟩
      · intro hemp
        show nextSort
            ((db.links.filter (fun l => l.section_id == sid)).map Link.sort_order) = 0
        rw [hemp]
        rfl
      · intro k hk hksec
        show k.sort_order < nextSort
            ((db.links.filter (fun l => l.section_id == sid)).map Link.sort_order)
        have hkf : k ∈ db.links.filter (fun l => l.section_id == sid) :=
          List.mem_filter.mpr ⟨hk, by simp [hksec]⟩
        exact nextSort_gt k.sort_order (List.mem_map_of_mem Link.sort_order hkf)
      · intro hne
        show ∃ k ∈ db.links, k.section_id = sid
            ∧ nextSort
                ((db.links.filter (fun l => l.section_id == sid)).map Link.sort_order)
              = k.sort_order + 1
        have hmne : (db.links.filter (fun l => l.section_id == sid)).map Link.sort_order
            ≠ [] := by
          intro hc
          exact hne (List.map_eq_nil_iff.mp hc)
        obtain ⟨v, hv, hveq⟩ := nextSort_eq_succ hmne
        obtain ⟨k, hkf, hks⟩ := List.mem_map.mp hv
        have hk := List.mem_filter.mp hkf
        refine ⟨k, hk.1, by simpa using hk.2, by rw [hveq, hks]⟩

/-- Witness for C7: creating section "C" in `dbTwoSections` (max
`sort_order` 1) appends it with `sort_order` 2. -/
theorem c7_witness :
    (pyStrip "C" ≠ ""
      ∧ (∀ s ∈ dbTwoSections.sections, s.name ≠ pyStrip "C"))
    ∧ ∃ s : Section,
        (create_section dbTwoSections "C").2.sections = dbTwoSections.sections ++ [s]
        ∧ (dbTwoSections.sections = [] → s.sort_order = 0)
        ∧ (∀ t ∈ dbTwoSections.sections, t.sort_order < s.sort_order)
        ∧ (dbTwoSections.sections ≠ [] →
            ∃ t ∈ dbTwoSections.sections, s.sort_order = t.sort_order + 1) :=
  ⟨⟨by decide, by decide⟩,
    ((c7_append_at_end dbTwoSections "C" 1 "t" "u").1).1 (by decide) (by decide)⟩

/-! ## Claim C8: helper layer -/

/-- The stored section names, in storage order. -/
def sectionNames (db : DB) : List String := db.sections.map Section.name

theorem create_section_conflict (db : DB) (nameArg : String)
    (hnm : pyStrip nameArg ≠ "")
    (hany : db.sections.any (fun s => s.name == pyStrip nameArg) = true) :
    create_section db nameArg = (.error ⟨409, "Section name already exists"⟩, db) := by
  simp only [create_section, if_neg hnm, hany]
  simp

theorem update_section_404 (db : DB) (sid : Int) (n? c? : Option String)
    (hfd : db.sections.find? (fun s => s.id == sid) = none) :
    update_section db sid n? c? = (.error ⟨404, "Section not found"⟩, db) := by
  simp only [update_section, hfd]

theorem update_section_empty_name (db : DB) (sid : Int) (n : String) (c? : Option String)
    (s : Section) (hfd : db.sections.find? (fun t => t.id == sid) = some s)
    (hemp : pyStrip n = "") :
    update_section db sid (some n) c? = (.error ⟨400, "Section name cannot be empty"⟩, db) := by
  simp only [update_section, hfd, if_pos hemp]

theorem update_section_name_conflict (db : DB) (sid : Int) (n : String)
    (c? : Option String) (s : Section)
    (hfd : db.sections.find? (fun t => t.id == sid) = some s)
    (hnn : pyStrip n ≠ "")
    (hdup : db.sections.any (fun t => t.name == pyStrip n && !(t.id == sid)) = true) :
    update_section db sid (some n) c?
      = (.error ⟨409, "Section name already exists"⟩, db) := by
  simp only [update_section, hfd, if_neg hnn, hdup]
  simp

theorem update_section_invalid_color_some_name (db : DB) (sid : Int) (n c : String)
    (s : Section) (hfd : db.sections.find? (fun t => t.id == sid) = some s)
    (hnn : pyStrip n ≠ "")
    (hdupf : db.sections.any (fun t => t.name == pyStrip n && !(t.id == sid)) = false)
    (hcolf : ALLOWED_COLORS.contains (pyLower (pyStrip c)) = false) :
    update_section db sid (some n) (some c)
      = (.error ⟨400, "Invalid color. Allowed: ['amber', 'blue', 'green', 'pink', 'purple', 'red', 'slate', 'teal']"⟩, db) := by
  simp only [update_section, hfd, if_neg hnn, hdupf, hcolf]
  simp

theorem update_section_invalid_color_none_name (db : DB) (sid : Int) (c : String)
    (s : Section) (hfd : db.sections.find? (fun t => t.id == sid) = some s)
    (hcolf : ALLOWED_COLORS.contains (pyLower (pyStrip c)) = false) :
    update_section db sid none (some c)
      = (.error ⟨400, "Invalid color. Allowed: ['amber', 'blue', 'green', 'pink', 'purple', 'red', 'slate', 'teal']"⟩, db) := by
  simp only [update_section, hfd, hcolf]
  simp

theorem update_section_commit_some_none (db : DB) (sid : Int) (n : String)
    (s : Section) (hfd : db.sections.find? (fun t => t.id == sid) = some s)
    (hnn : pyStrip n ≠ "")
    (hdupf : db.sections.any (fun t => t.name == pyStrip n && !(t.id == sid)) = false) :
    update_section db sid (some n) none
      = (.ok (), { db with sections := db.sections.map (fun t =>
          if t.id == sid then { t with name := pyStrip n, color := s.color } else t) }) := by
  simp only [update_section, hfd, if_neg hnn, hdupf]
  simp

theorem update_section_commit_some_some (db : DB) (sid : Int) (n c : String)
    (s : Section) (hfd : db.sections.find? (fun t => t.id == sid) = some s)
    (hnn : pyStrip n ≠ "")
    (hdupf : db.sections.any (fun t => t.name == pyStrip n && !(t.id == sid)) = false)
    (hcol : ALLOWED_COLORS.contains (pyLower (pyStrip c)) = true) :
    update_section db sid (some n) (some c)
      = (.ok (), { db with sections := db.sections.map (fun t =>
          if t.id == sid then { t with name := pyStrip n, color := pyLower (pyStrip c) }
          else t) }) := by
  simp only [update_section, hfd, if_neg hnn, hdupf, hcol]
  simp

theorem update_section_commit_none_none (db : DB) (sid : Int)
    (s : Section) (hfd : db.sections.find? (fun t => t.id == sid) = some s) :
    update_section db sid none none
      = (.ok (), { db with sections := db.sections.map (fun t =>
          if t.id == sid then { t with name := s.name, color := s.color } else t) }) := by
  simp only [update_section, hfd]

theorem update_section_commit_none_some (db : DB) (sid : Int) (c : String)
    (s : Section) (hfd : db.sections.find? (fun t => t.id == sid) = some s)
    (hcol : ALLOWED_COLORS.contains (pyLower (pyStrip c)) = true) :
    update_section db sid none (some c)
      = (.ok (), { db with sections := db.sections.map (fun t =>
          if t.id == sid then { t with name := s.name, color := pyLower (pyStrip c) }
          else t) }) := by
  simp only [update_section, hfd, hcol]
  simp

theorem delete_section_found (db : DB) (sid : Int)
    (s : Section) (hfd : db.sections.find? (fun t => t.id == sid) = some s) :
    delete_section db sid
      = (.ok (), { db with
          sections := db.sections.filter (fun t => !(t.id == sid)),
          links := db.links.filter (fun l => !(l.section_id == sid)) }) := by
  simp only [delete_section, hfd]

theorem add_link_sections (db : DB) (sid : Int) (t u : String) :
    (add_link db sid t u).2.sections = db.sections := by
  unfold add_link
  by_cases ht : pyStrip t = ""
  · rw [if_pos ht]
  · rw [if_neg ht]
    cases hfd : db.sections.find? (fun s => s.id == sid) <;> rfl

theorem update_link_sections (db : DB) (lid : Int) (t? u? : Option String) :
    (update_link db lid t? u?).2.sections = db.sections := by
  unfold update_link
  cases hfd : db.links.find? (fun l => l.id == lid) with
  | none => rfl
  | some l =>
    cases t? with
    | none => rfl
    | some t =>
      by_cases htt : pyStrip t = ""
      · simp only [if_pos htt]
      · simp only [if_neg htt]

theorem delete_link_sections (db : DB) (lid : Int) :
    (delete_link db lid).2.sections = db.sections := by
  unfold delete_link
  cases hfd : db.links.find? (fun l => l.id == lid) <;> rfl

theorem reorder_links_sections (db : DB) (sid : Int) (raw : List RawEntry) :
    (reorder_links db sid raw).2.sections = db.sections := by
  unfold reorder_links
  cases h : normalize_ids raw <;> rfl

theorem reorder_sections_names (db : DB) (raw : List RawEntry) :
    (reorder_sections db raw).2.sections.map Section.name
      = db.sections.map Section.name := by
  unfold reorder_sections
  cases h : normalize_ids raw with
  | error m => rfl
  | ok ids =>
    show ((reorder_sections_core db ids).2.sections).map Section.name = _
    exact orderLoop_map_proj secSel secSet secSel_secSet secSet_secSet Section.name
      (fun i x => rfl) _ 0 db.sections

theorem nodup_names_after_update :
    ∀ {l : List Section}, (l.map Section.name).Nodup → (l.map Section.id).Nodup →
    ∀ {sid : Int} {nn cc : String}, (∀ t ∈ l, t.name = nn → t.id = sid) →
    ((l.map (fun t => if t.id == sid then { t with name := nn, color := cc } else t)).map
      Section.name).Nodup := by
  intro l
  induction l with
  | nil => intro _ _ _ _ _ _; simp
  | cons t ts ih =>
    intro hnames hids sid nn cc hfresh
    rw [List.map_cons] at hnames hids
    obtain ⟨htname, hnames'⟩ := List.nodup_cons.mp hnames
    obtain ⟨htid, hids'⟩ := List.nodup_cons.mp hids
    rw [List.map_cons, List.map_cons]
    by_cases htc : (t.id == sid) = true
    · rw [if_pos htc]
      have htid_eq : t.id = sid := by simpa using htc
      have htail : ts.map (fun u =>
          if u.id == sid then { u with name := nn, color := cc } else u) = ts := by
        have hstep : ∀ u ∈ ts, (if u.id == sid then
            ({ u with name := nn, color := cc } : Section) else u) = (fun x => x) u := by
          intro u hu
          rw [if_neg]
          intro hc
          have huid : u.id = sid := by simpa using hc
          have hm : u.id ∈ ts.map Section.id := List.mem_map_of_mem Section.id hu
          rw [huid, ← htid_eq] at hm
          exact htid hm
        exact (List.map_congr_left hstep).trans (List.map_id' ts)
      rw [htail]
      apply List.nodup_cons.mpr
      refine ⟨?_, hnames'⟩
      intro hc
      obtain ⟨u, hu, huname⟩ := List.mem_map.mp hc
      have huid : u.id = sid := hfresh u (List.mem_cons_of_mem t hu) huname
      have hm : u.id ∈ ts.map Section.id := List.mem_map_of_mem Section.id hu
      rw [huid, ← htid_eq] at hm
      exact htid hm
    · rw [if_neg htc]
      have htid_ne : t.id ≠ sid := by simpa using htc
      apply List.nodup_cons.mpr
      refine ⟨?_, ih hnames' hids' (fun u hu hun => hfresh u (List.mem_cons_of_mem t hu) hun)⟩
      intro hc
      obtain ⟨y, hy, hyname⟩ := List.mem_map.mp hc
      obtain ⟨u, hu, hueq⟩ := List.mem_map.mp hy
      by_cases huc : (u.id == sid) = true
      · rw [if_pos huc] at hueq
        have : nn = t.name := by rw [← hueq] at hyname; exact hyname
        exact htid_ne (hfresh t (List.mem_cons_self t ts) this.symm)
      · rw [if_neg huc] at hueq
        apply htname
        rw [← hueq] at hyname
        exact hyname ▸ List.mem_map_of_mem Section.name hu

/-- C8: trimmed section names are unique and case-sensitive — creating a
duplicate fails with Conflict, renaming onto another section's name fails
with Conflict (self excluded), and name uniqueness is preserved by every
endpoint. -/
theorem c8_unique_section_names (db : DB) (nameArg newName : String) (sid lid : Int)
    (c? t? u? : Option String) (tArg uArg : String) (raw : List RawEntry) :
    ((pyStrip nameArg ≠ "" → (∃ s ∈ db.sections, s.name = pyStrip nameArg) →
        create_section db nameArg = (.error ⟨409, "Section name already exists"⟩, db))
    ∧ ((∃ s ∈ db.sections, s.id = sid) → pyStrip newName ≠ "" →
        (∃ s2 ∈ db.sections, s2.name = pyStrip newName ∧ s2.id ≠ sid) →
        update_section db sid (some newName) c?
          = (.error ⟨409, "Section name already exists"⟩, db)))
    ∧ ((sectionNames db).Nodup → (db.sections.map Section.id).Nodup →
        ((sectionNames (create_section db nameArg).2).Nodup
        ∧ (sectionNames (update_section db sid (some newName) c?).2).Nodup
        ∧ (sectionNames (update_section db sid none c?).2).Nodup
        ∧ (sectionNames (delete_section db sid).2).Nodup
        ∧ (sectionNames (add_link db sid tArg uArg).2).Nodup
        ∧ (sectionNames (update_link db lid t? u?).2).Nodup
        ∧ (sectionNames (delete_link db lid).2).Nodup
        ∧ (sectionNames (reorder_sections db raw).2).Nodup
        ∧ (sectionNames (reorder_links db sid raw).2).Nodup)) := by
  refine ⟨⟨?_, ?_⟩, ?_⟩
  · intro hnm hex
    obtain ⟨s, hs, hname⟩ := hex
    have hany : db.sections.any (fun x => x.name == pyStrip nameArg) = true :=
      List.any_eq_true.mpr ⟨s, hs, by simp [hname]⟩
    exact create_section_conflict db nameArg hnm hany
  · intro hex hnn hex2
    obtain ⟨s, hs, hsid⟩ := hex
    obtain ⟨s2, hs2, hs2name, hs2id⟩ := hex2
    have hfind : (db.sections.find? (fun t => t.id == sid)).isSome :=
      List.find?_isSome.mpr ⟨s, hs, by simp [hsid]⟩
    cases hfd : db.sections.find? (fun t => t.id == sid) with
    | none => rw [hfd] at hfind; cases hfind
    | some s0 =>
      have hdup : db.sections.any
          (fun t => t.name == pyStrip newName && !(t.id == sid)) = true :=
        List.any_eq_true.mpr ⟨s2, hs2, by simp [hs2name, hs2id]⟩
      exact update_section_name_conflict db sid newName c? s0 hfd hnn hdup
  · intro hnames hids
    refine ⟨?_, ?_, ?_, ?_, ?_, ?_, ?_, ?_, ?_⟩
    · by_cases hnm : pyStrip nameArg = ""
      · have hdb : (create_section db nameArg).2 = db := by
          simp only [create_section, if_pos hnm]
        rw [hdb]
        exact hnames
      · by_cases hany : db.sections.any (fun s => s.name == pyStrip nameArg) = true
        · rw [create_section_conflict db nameArg hnm hany]
          exact hnames
        · have hanyf := Bool.eq_false_iff.mpr hany
          have hnin : pyStrip nameArg ∉ sectionNames db := by
            intro hc
            obtain ⟨s, hs, hsname⟩ := List.mem_map.mp hc
            exact hany (List.any_eq_true.mpr ⟨s, hs, by simp [hsname]⟩)
          have hlist : sectionNames (create_section db nameArg).2
              = sectionNames db ++ [pyStrip nameArg] := by
            rw [create_section_success db nameArg hnm hanyf]
            simp [sectionNames]
          rw [hlist]
          refine hnames.append (List.nodup_singleton _) ?_
          intro x hx hx2
          rw [List.mem_singleton.mp hx2] at hx
          exact hnin hx
    · cases hfd : db.sections.find? (fun t => t.id == sid) with
      | none =>
        rw [update_section_404 db sid (some newName) c? hfd]
        exact hnames
      | some s0 =>
        by_cases hemp : pyStrip newName = ""
        · rw [update_section_empty_name db sid newName c? s0 hfd hemp]
          exact hnames
        · by_cases hdup : db.sections.any
              (fun t => t.name == pyStrip newName && !(t.id == sid)) = true
          · rw [update_section_name_conflict db sid newName c? s0 hfd hemp hdup]
            exact hnames
          · have hdupf := Bool.eq_false_iff.mpr hdup
            have hfresh : ∀ t ∈ db.sections, t.name = pyStrip newName → t.id = sid := by
              intro t ht htn
              by_contra hne
              exact hdup (List.any_eq_true.mpr ⟨t, ht, by simp [htn, hne]⟩)
            cases c? with
            | none =>
              rw [update_section_commit_some_none db sid newName s0 hfd hemp hdupf]
              exact nodup_names_after_update hnames hids hfresh
            | some c =>
              by_cases hcol : ALLOWED_COLORS.contains (pyLower (pyStrip c)) = true
              · rw [update_section_commit_some_some db sid newName c s0 hfd hemp hdupf hcol]
                exact nodup_names_after_update hnames hids hfresh
              · have hcolf := Bool.eq_false_iff.mpr hcol
                rw [update_section_invalid_color_some_name db sid newName c s0 hfd hemp
                  hdupf hcolf]
                exact hnames
    · cases hfd : db.sections.find? (fun t => t.id == sid) with
      | none =>
        rw [update_section_404 db sid none c? hfd]
        exact hnames
      | some s0 =>
        have hs0 : s0 ∈ db.sections := List.mem_of_find?_eq_some hfd
        have hs0id : s0.id = sid := by simpa using List.find?_some hfd
        have hfresh : ∀ t ∈ db.sections, t.name = s0.name → t.id = sid := by
          intro t ht htn
          have heq : t = s0 := List.inj_on_of_nodup_map hnames ht hs0 htn
          rw [heq, hs0id]
        cases c? with
        | none =>
          rw [update_section_commit_none_none db sid s0 hfd]
          exact nodup_names_after_update hnames hids hfresh
        | some c =>
          by_cases hcol : ALLOWED_COLORS.contains (pyLower (pyStrip c)) = true
          · rw [update_section_commit_none_some db sid c s0 hfd hcol]
            exact nodup_names_after_update hnames hids hfresh
          · have hcolf := Bool.eq_false_iff.mpr hcol
            rw [update_section_invalid_color_none_name db sid c s0 hfd hcolf]
            exact hnames
    · cases hfd : db.sections.find? (fun t => t.id == sid) with
      | none =>
        have hdb : (delete_section db sid).2 = db := by
          simp only [delete_section, hfd]
        rw [hdb]
        exact hnames
      | some s0 =>
        rw [delete_section_found db sid s0 hfd]
        show ((db.sections.filter (fun t => !(t.id == sid))).map Section.name).Nodup
        exact hnames.sublist (List.Sublist.map Section.name (List.filter_sublist db.sections))
    · show ((add_link db sid tArg uArg).2.sections.map Section.name).Nodup
      rw [add_link_sections]
      exact hnames
    · show ((update_link db lid t? u?).2.sections.map Section.name).Nodup
      rw [update_link_sections]
      exact hnames
    · show ((delete_link db lid).2.sections.map Section.name).Nodup
      rw [delete_link_sections]
      exact hnames
    · show ((reorder_sections db raw).2.sections.map Section.name).Nodup
      rw [reorder_sections_names]
      exact hnames
    · show ((reorder_links db sid raw).2.sections.map Section.name).Nodup
      rw [reorder_links_sections]
      exact hnames

/-- Witness for C8: creating a second section named "A" in
`dbTwoSections` fails with 409 and leaves the store unchanged. -/
theorem c8_witness :
    (pyStrip "A" ≠ "" ∧ (∃ s ∈ dbTwoSections.sections, s.name = pyStrip "A"))
    ∧ create_section dbTwoSections "A"
        = (Except.error ⟨409, "Section name already exists"⟩, dbTwoSections) :=
  ⟨⟨by decide, by decide⟩,
    ((c8_unique_section_names dbTwoSections "A" "B" 1 1 none none none "t" "u" []).1).1
      (by decide) (by decide)⟩

/-! ## Claim C9: helper layer -/

/-- Referential integrity: every link's `section_id` names a stored section. -/
def RefInt (db : DB) : Prop :=
  ∀ l ∈ db.links, ∃ s ∈ db.sections, s.id = l.section_id

theorem delete_section_404 (db : DB) (sid : Int)
    (hfd : db.sections.find? (fun t => t.id == sid) = none) :
    delete_section db sid = (.error ⟨404, "Section not found"⟩, db) := by
  simp only [delete_section, hfd]

theorem add_link_empty_title (db : DB) (sid : Int) (t u : String)
    (ht : pyStrip t = "") :
    add_link db sid t u = (.error ⟨400, "Title cannot be empty"⟩, db) := by
  simp only [add_link, if_pos ht]

theorem add_link_404 (db : DB) (sid : Int) (t u : String)
    (ht : pyStrip t ≠ "") (hfd : db.sections.find? (fun s => s.id == sid) = none) :
    add_link db sid t u = (.error ⟨404, "Section not found"⟩, db) := by
  simp only [add_link, if_neg ht, hfd]

theorem update_link_404 (db : DB) (lid : Int) (t? u? : Option String)
    (hfd : db.links.find? (fun l => l.id == lid) = none) :
    update_link db lid t? u? = (.error ⟨404, "Link not found"⟩, db) := by
  simp only [update_link, hfd]

theorem update_link_empty_title (db : DB) (lid : Int) (t : String) (u? : Option String)
    (l : Link) (hfd : db.links.find? (fun k => k.id == lid) = some l)
    (htt : pyStrip t = "") :
    update_link db lid (some t) u? = (.error ⟨400, "Title cannot be empty"⟩, db) := by
  simp only [update_link, hfd, if_pos htt]

theorem update_link_commit_none (db : DB) (lid : Int) (u? : Option String)
    (l : Link) (hfd : db.links.find? (fun k => k.id == lid) = some l) :
    update_link db lid none u?
      = (.ok (), { db with links := db.links.map (fun k =>
          if k.id == lid then
            { k with
              title := l.title
              url := (match u? with | none => l.url | some u => pyStrip u) }
          else k) }) := by
  simp only [update_link, hfd]

theorem update_link_commit_some (db : DB) (lid : Int) (t : String) (u? : Option String)
    (l : Link) (hfd : db.links.find? (fun k => k.id == lid) = some l)
    (htt : pyStrip t ≠ "") :
    update_link db lid (some t) u?
      = (.ok (), { db with links := db.links.map (fun k =>
          if k.id == lid then
            { k with
              title := pyStrip t
              url := (match u? with | none => l.url | some u => pyStrip u) }
          else k) }) := by
  simp only [update_link, hfd, if_neg htt]

theorem delete_link_404 (db : DB) (lid : Int)
    (hfd : db.links.find? (fun l => l.id == lid) = none) :
    delete_link db lid = (.error ⟨404, "Link not found"⟩, db) := by
  simp only [delete_link, hfd]

theorem delete_link_found (db : DB) (lid : Int)
    (l : Link) (hfd : db.links.find? (fun k => k.id == lid) = some l) :
    delete_link db lid
      = (.ok (), { db with links := db.links.filter (fun k => !(k.id == lid)) }) := by
  simp only [delete_link, hfd]

theorem reorder_sections_links (db : DB) (raw : List RawEntry) :
    (reorder_sections db raw).2.links = db.links := by
  unfold reorder_sections
  cases h : normalize_ids raw <;> rfl

theorem reorder_sections_ids (db : DB) (raw : List RawEntry) :
    (reorder_sections db raw).2.sections.map Section.id
      = db.sections.map Section.id := by
  unfold reorder_sections
  cases h : normalize_ids raw with
  | error m => rfl
  | ok ids =>
    show ((reorder_sections_core db ids).2.sections).map Section.id = _
    exact orderLoop_map_proj secSel secSet secSel_secSet secSet_secSet Section.id
      (fun i x => rfl) _ 0 db.sections

theorem reorder_links_section_ids (db : DB) (target : Int) (raw : List RawEntry) :
    (reorder_links db target raw).2.links.map Link.section_id
      = db.links.map Link.section_id := by
  unfold reorder_links
  cases h : normalize_ids raw with
  | error m => rfl
  | ok ids =>
    show ((reorder_links_core db target ids).2.links).map Link.section_id = _
    exact orderLoop_map_proj (linkSel target) linkSet (linkSel_linkSet target)
      linkSet_linkSet Link.section_id (fun i x => rfl) _ 0 db.links

theorem refInt_map_sections (db : DB) (hri : RefInt db) (f : Section → Section)
    (hid : ∀ s, (f s).id = s.id) :
    RefInt { db with sections := db.sections.map f } := by
  intro l hl
  obtain ⟨s, hs, hsid⟩ := hri l hl
  exact ⟨f s, List.mem_map_of_mem f hs, by rw [hid, hsid]⟩

theorem refInt_map_links (db : DB) (hri : RefInt db) (g : Link → Link)
    (hsec : ∀ l, (g l).section_id = l.section_id) :
    RefInt { db with links := db.links.map g } := by
  intro l' hl'
  obtain ⟨l, hl, hgl⟩ := List.mem_map.mp hl'
  obtain ⟨s, hs, hsid⟩ := hri l hl
  refine ⟨s, hs, ?_⟩
  rw [← hgl, hsec, hsid]

/-- C9: referential integrity — every link's `section_id` names an
existing section — is preserved by every endpoint; deleting a section
cascades to its links, and fetching (updating or deleting) such a link
afterwards answers 404 NotFound. -/
theorem c9_referential_integrity (db : DB) (nameArg : String) (sid lid target : Int)
    (n? c? t? u? : Option String) (tArg uArg : String) (raw : List RawEntry)
    (hri : RefInt db) (hlids : (db.links.map Link.id).Nodup) :
    (RefInt (create_section db nameArg).2
    ∧ RefInt (update_section db sid n? c?).2
    ∧ RefInt (delete_section db sid).2
    ∧ RefInt (add_link db sid tArg uArg).2
    ∧ RefInt (update_link db lid t? u?).2
    ∧ RefInt (delete_link db lid).2
    ∧ RefInt (reorder_sections db raw).2
    ∧ RefInt (reorder_links db target raw).2)
    ∧ (∀ l ∈ db.links, l.section_id = sid →
        l ∉ (delete_section db sid).2.links
        ∧ update_link (delete_section db sid).2 l.id t? u?
            = (.error ⟨404, "Link not found"⟩, (delete_section db sid).2)
        ∧ delete_link (delete_section db sid).2 l.id
            = (.error ⟨404, "Link not found"⟩, (delete_section db sid).2)) := by
  constructor
  · refine ⟨?_, ?_, ?_, ?_, ?_, ?_, ?_, ?_⟩
    · by_cases hnm : pyStrip nameArg = ""
      · have hdb : (create_section db nameArg).2 = db := by
          simp only [create_section, if_pos hnm]
        rw [hdb]
        exact hri
      · by_cases hany : db.sections.any (fun s => s.name == pyStrip nameArg) = true
        · rw [create_section_conflict db nameArg hnm hany]
          exact hri
        · rw [create_section_success db nameArg hnm (Bool.eq_false_iff.mpr hany)]
          intro l hl
          obtain ⟨s, hs, hsid⟩ := hri l hl
          exact ⟨s, List.mem_append_left _ hs, hsid⟩
    · cases hfd : db.sections.find? (fun t => t.id == sid) with
      | none =>
        rw [update_section_404 db sid n? c? hfd]
        exact hri
      | some s0 =>
        cases n? with
        | some n =>
          by_cases hemp : pyStrip n = ""
          · rw [update_section_empty_name db sid n c? s0 hfd hemp]
            exact hri
          · by_cases hdup : db.sections.any
                (fun t => t.name == pyStrip n && !(t.id == sid)) = true
            · rw [update_section_name_conflict db sid n c? s0 hfd hemp hdup]
              exact hri
            · have hdupf := Bool.eq_false_iff.mpr hdup
              cases c? with
              | none =>
                rw [update_section_commit_some_none db sid n s0 hfd hemp hdupf]
                apply refInt_map_sections db hri
                intro s
                by_cases hc : (s.id == sid) = true <;> simp [hc]
              | some c =>
                by_cases hcol : ALLOWED_COLORS.contains (pyLower (pyStrip c)) = true
                · rw [update_section_commit_some_some db sid n c s0 hfd hemp hdupf hcol]
                  apply refInt_map_sections db hri
                  intro s
                  by_cases hc : (s.id == sid) = true <;> simp [hc]
                · rw [update_section_invalid_color_some_name db sid n c s0 hfd hemp hdupf
                    (Bool.eq_false_iff.mpr hcol)]
                  exact hri
        | none =>
          cases c? with
          | none =>
            rw [update_section_commit_none_none db sid s0 hfd]
            apply refInt_map_sections db hri
            intro s
            by_cases hc : (s.id == sid) = true <;> simp [hc]
          | some c =>
            by_cases hcol : ALLOWED_COLORS.contains (pyLower (pyStrip c)) = true
            · rw [update_section_commit_none_some db sid c s0 hfd hcol]
              apply refInt_map_sections db hri
              intro s
              by_cases hc : (s.id == sid) = true <;> simp [hc]
            · rw [update_section_invalid_color_none_name db sid c s0 hfd
                (Bool.eq_false_iff.mpr hcol)]
              exact hri
    · cases hfd : db.sections.find? (fun t => t.id == sid) with
      | none =>
        rw [delete_section_404 db sid hfd]
        exact hri
      | some s0 =>
        rw [delete_section_found db sid s0 hfd]
        intro l hl
        have hl' := List.mem_filter.mp hl
        have hlneq : l.section_id ≠ sid := by simpa using hl'.2
        obtain ⟨s, hs, hsid⟩ := hri l hl'.1
        refine ⟨s, List.mem_filter.mpr ⟨hs, ?_⟩, hsid⟩
        simp [hsid, hlneq]
    · by_cases ht : pyStrip tArg = ""
      · rw [add_link_empty_title db sid tArg uArg ht]
        exact hri
      · cases hfd : db.sections.find? (fun s => s.id == sid) with
        | none =>
          rw [add_link_404 db sid tArg uArg ht hfd]
          exact hri
        | some sx =>
          rw [add_link_success db sid tArg uArg sx ht hfd]
          intro l hl
          rcases List.mem_append.mp hl with hmem | hnew
          · obtain ⟨s, hs, hsid⟩ := hri l hmem
            exact ⟨s, hs, hsid⟩
          · have hl_eq := List.mem_singleton.mp hnew
            have hsx : sx ∈ db.sections := List.mem_of_find?_eq_some hfd
            have hsxid : sx.id = sid := by simpa using List.find?_some hfd
            refine ⟨sx, hsx, ?_⟩
            rw [hl_eq]
            exact hsxid
    · cases hfd : db.links.find? (fun k => k.id == lid) with
      | none =>
        rw [update_link_404 db lid t? u? hfd]
        exact hri
      | some l0 =>
        cases t? with
        | none =>
          rw [update_link_commit_none db lid u? l0 hfd]
          apply refInt_map_links db hri
          intro k
          by_cases hc : (k.id == lid) = true <;> simp [hc]
        | some t =>
          by_cases htt : pyStrip t = ""
          · rw [update_link_empty_title db lid t u? l0 hfd htt]
            exact hri
          · rw [update_link_commit_some db lid t u? l0 hfd htt]
            apply refInt_map_links db hri
            intro k
            by_cases hc : (k.id == lid) = true <;> simp [hc]
    · cases hfd : db.links.find? (fun k => k.id == lid) with
      | none =>
        rw [delete_link_404 db lid hfd]
        exact hri
      | some l0 =>
        rw [delete_link_found db lid l0 hfd]
        intro l hl
        exact hri l (List.mem_filter.mp hl).1
    · intro l hl
      rw [reorder_sections_links] at hl
      obtain ⟨s, hs, hsid⟩ := hri l hl
      have hmem : s.id ∈ (reorder_sections db raw).2.sections.map Section.id := by
        rw [reorder_sections_ids]
        exact List.mem_map_of_mem Section.id hs
      obtain ⟨s', hs', hs'id⟩ := List.mem_map.mp hmem
      exact ⟨s', hs', by rw [hs'id, hsid]⟩
    · intro l' hl'
      have hmem : l'.section_id ∈ db.links.map Link.section_id := by
        rw [← reorder_links_section_ids db target raw]
        exact List.mem_map_of_mem Link.section_id hl'
      obtain ⟨l, hl, hleq⟩ := List.mem_map.mp hmem
      obtain ⟨s, hs, hsid⟩ := hri l hl
      refine ⟨s, ?_, by rw [hsid, hleq]⟩
      rw [reorder_links_sections]
      exact hs
  · intro l hl hlsec
    obtain ⟨s, hs, hsid⟩ := hri l hl
    have hfind : (db.sections.find? (fun t => t.id == sid)).isSome :=
      List.find?_isSome.mpr ⟨s, hs, by simp [hsid, hlsec]⟩
    cases hfd : db.sections.find? (fun t => t.id == sid) with
    | none => rw [hfd] at hfind; cases hfind
    | some s0 =>
      rw [delete_section_found db sid s0 hfd]
      have hfnone : (db.links.filter (fun k => !(k.section_id == sid))).find?
          (fun k => k.id == l.id) = none := by
        apply List.find?_eq_none.mpr
        intro k hk hkid
        have hkmem := (List.mem_filter.mp hk).1
        have hksec := (List.mem_filter.mp hk).2
        have hkeq : k = l := List.inj_on_of_nodup_map hlids hkmem hl (by simpa using hkid)
        rw [hkeq] at hksec
        simp [hlsec] at hksec
      refine ⟨?_, ?_, ?_⟩
      · intro hc
        have := (List.mem_filter.mp hc).2
        simp [hlsec] at this
      · exact update_link_404 _ l.id t? u? hfnone
      · exact delete_link_404 _ l.id hfnone

/-- Witness for C9: deleting section 1 of `dbOneSection` removes link 5,
and deleting link 5 afterwards answers 404. -/
theorem c9_witness :
    (RefInt dbOneSection ∧ (dbOneSection.links.map Link.id).Nodup
      ∧ (⟨5, 1, "t", "u", 0, 0⟩ : Link) ∈ dbOneSection.links
      ∧ (⟨5, 1, "t", "u", 0, 0⟩ : Link).section_id = 1)
    ∧ (⟨5, 1, "t", "u", 0, 0⟩ : Link) ∉ (delete_section dbOneSection 1).2.links
    ∧ delete_link (delete_section dbOneSection 1).2 5
        = (.error ⟨404, "Link not found"⟩, (delete_section dbOneSection 1).2) := by
  have h := (c9_referential_integrity dbOneSection "x" 1 1 1 none none none none
    "t" "u" [] (by unfold RefInt; decide) (by decide)).2
    ⟨5, 1, "t", "u", 0, 0⟩ (by decide) (by decide)
  exact ⟨⟨by unfold RefInt; decide, by decide, by decide, by decide⟩, h.1, h.2.2⟩

end LinksCrud

